import Mathlib

/-!
Verification of the speech-bubble layout engine of `img_gen`
(`src/overlay.py`), as a shallow embedding in Lean 4.

The engine arithmetic (font-size fitting, bubble geometry, clamping,
overlay orchestration) is translated function by function from
`src/overlay.py`.  Calls into the PIL library (font measurement via
`font.getbbox`, the drawing primitives of `ImageDraw`, and
`Image.alpha_composite`) are external to the repository; they are modelled
as explicit parameters (a `FontMetrics` record for the typeface, a
`Rasterizer` for pixel coverage of drawing primitives) or, for alpha
compositing, by the standard straight-alpha "over" operator, so that every
theorem quantifies over the behaviour of the external library where the
repository code does not fix it.
-/

namespace ImgGen

/-! ## Constants from src/overlay.py (lines 20-27) -/

/-- An RGBA colour as used by PIL (each channel 0-255). -/
structure RGBA where
  r : Nat
  g : Nat
  b : Nat
  a : Nat
deriving DecidableEq, Repr

def BUBBLE_COLOR : RGBA := ⟨255, 255, 255, 230⟩
def OUTLINE_COLOR : RGBA := ⟨60, 60, 60, 255⟩
def TEXT_COLOR : RGBA := ⟨30, 30, 30, 255⟩
def BUBBLE_PADDING : Int := 20
def BUBBLE_RADIUS : Int := 18
def TAIL_SIZE : Int := 15
def MARGIN : Int := 25

/-! ## Font metrics

`get_font(size)` loads the fixed DejaVuSans-Bold typeface at a given pixel
size; `font.getbbox(text)` then measures the text.  The FreeType metrics are
external to the repository, so they enter the embedding as an abstract
record: `width text s` is `bbox[2] - bbox[0]` and `height text s` is
`bbox[3] - bbox[1]` for the font at size `s` (both are nonnegative pixel
counts, hence `Nat`), and `bboxTop text s` is `bbox[1]` (which may be
negative). -/
structure FontMetrics where
  width : String → Int → Nat
  height : String → Int → Nat
  bboxTop : String → Int → Int

/-! ## fit_font_size (src/overlay.py lines 34-42)

```python
def fit_font_size(text, max_width, max_size=42, min_size=22):
    for size in range(max_size, min_size - 1, -2):
        font = get_font(size)
        bbox = font.getbbox(text)
        text_w = bbox[2] - bbox[0]
        if text_w + BUBBLE_PADDING * 2 <= max_width:
            return font
    return get_font(min_size)
```

A font value is determined by its size, so the embedding returns the
selected size. -/

/-- Helper list `rangeDown2Aux n a = [a, a-2, a-4, …]` with `n` elements. -/
def rangeDown2Aux : Nat → Int → List Int
  | 0, _ => []
  | n + 1, a => a :: rangeDown2Aux n (a - 2)

/-- The Python `range(a, b, -2)` as a list: the elements `a, a-2, …` that are
strictly greater than `b`.  The element count is `max 0 (⌈(a-b)/2⌉) =
((a - b + 1) / 2).toNat`. -/
def pyRangeDown2 (a b : Int) : List Int :=
  rangeDown2Aux ((a - b + 1) / 2).toNat a

/-- Whether the text, measured at size `s`, fits the width budget with its
padding: the loop condition `text_w + BUBBLE_PADDING * 2 <= max_width`. -/
def FitsAt (m : FontMetrics) (text : String) (max_width s : Int) : Prop :=
  (m.width text s : Int) + BUBBLE_PADDING * 2 ≤ max_width

instance (m : FontMetrics) (text : String) (max_width s : Int) :
    Decidable (FitsAt m text max_width s) := by
  unfold FitsAt; infer_instance

/-- The `for` loop of `fit_font_size`: return the first candidate size that
fits, else fall through to `min_size`. -/
def fitLoop (m : FontMetrics) (text : String) (max_width min_size : Int) :
    List Int → Int
  | [] => min_size
  | s :: rest =>
    if FitsAt m text max_width s then s
    else fitLoop m text max_width min_size rest

/-- Embedding of `fit_font_size` from src/overlay.py: the size of the returned
font. -/
def fit_font_size (m : FontMetrics) (text : String)
    (max_width max_size min_size : Int) : Int :=
  fitLoop m text max_width min_size (pyRangeDown2 max_size (min_size - 1))

/-- Specialisation of `fit_font_size` to its default arguments `max_size = 42`,
`min_size = 22`, the only way the repository calls it. -/
def fit_font_size_default (m : FontMetrics) (text : String)
    (max_width : Int) : Int :=
  fit_font_size m text max_width 42 22

/-! ## draw_bubble (src/overlay.py lines 45-102)

The PIL drawing calls are recorded, in source order and with their source
arguments, as `DrawCmd` values; what pixels each primitive covers is
decided by PIL and therefore left abstract (see `Rasterizer` below). -/

/-- One PIL `ImageDraw` call issued by `draw_bubble`. -/
inductive DrawCmd where
  | roundedRectangle (xy : Int × Int × Int × Int) (radius : Int)
      (fill outline : RGBA) (width : Nat)
  | polygon (points : List (Int × Int)) (fill outline : RGBA) (width : Nat)
  | line (points : List (Int × Int)) (fill : RGBA) (width : Nat)
  | text (xy : Int × Int) (s : String) (fill : RGBA) (fontSize : Int)
deriving DecidableEq, Repr

/-- Everything `draw_bubble` computes: the clamped box corners `bx0 by0 bx1
by1`, the tail apex x `tail_x`, the list of draw calls issued, and the
Python return value `ret = (bx0, by0, bx1, by1 + TAIL_SIZE)`. -/
structure BubbleResult where
  bx0 : Int
  by0 : Int
  bx1 : Int
  by1 : Int
  tail_x : Int
  cmds : List DrawCmd
  ret : Int × Int × Int × Int
deriving Repr, Inhabited, DecidableEq

/-- Embedding of `draw_bubble` from src/overlay.py.  `fontSize` stands for the `font`
argument (a font value is determined by its size); `tail_side` and
`img_height` are accepted and, as in the source, never used for geometry.
`bw // 2` is Python floor division of the nonnegative `bw`, hence `Nat`
division. -/
def draw_bubble (m : FontMetrics) (text : String) (fontSize : Int)
    (center_x bottom_y : Int) (tail_side : String)
    (img_width img_height : Int) : BubbleResult :=
  let text_w : Nat := m.width text fontSize
  let text_h : Nat := m.height text fontSize
  -- bw = text_w + BUBBLE_PADDING * 2 ; bh = text_h + BUBBLE_PADDING * 2
  let bwN : Nat := text_w + 20 * 2
  let bhN : Nat := text_h + 20 * 2
  let bw : Int := bwN
  let bh : Int := bhN
  -- Position bubble centered on center_x, above bottom_y
  let bx0 : Int := center_x - (bwN / 2 : Nat)
  let by0 : Int := bottom_y - bh - TAIL_SIZE
  let bx1 : Int := bx0 + bw
  let by1 : Int := by0 + bh
  -- Clamp horizontally: first the left edge, then the right edge
  let bx0h : Int := if bx0 < MARGIN then bx0 + (MARGIN - bx0) else bx0
  let bx1h : Int := if bx0 < MARGIN then bx1 + (MARGIN - bx0) else bx1
  let bx0c : Int :=
    if bx1h > img_width - MARGIN then bx0h - (bx1h - (img_width - MARGIN)) else bx0h
  let bx1c : Int :=
    if bx1h > img_width - MARGIN then bx1h - (bx1h - (img_width - MARGIN)) else bx1h
  -- Clamp vertically — do not go above top margin
  let by0c : Int := if by0 < MARGIN then by0 + (MARGIN - by0) else by0
  let by1c : Int := if by0 < MARGIN then by1 + (MARGIN - by0) else by1
  -- tail_x = max(bx0 + 20, min(center_x, bx1 - 20))
  let tail_x : Int := max (bx0c + 20) (min center_x (bx1c - 20))
  let cmds : List DrawCmd :=
    [ .roundedRectangle (bx0c, by0c, bx1c, by1c) BUBBLE_RADIUS
        BUBBLE_COLOR OUTLINE_COLOR 2,
      .polygon [(tail_x - 8, by1c), (tail_x + 8, by1c), (tail_x, by1c + TAIL_SIZE)]
        BUBBLE_COLOR OUTLINE_COLOR 1,
      .line [(tail_x - 7, by1c), (tail_x + 7, by1c)] BUBBLE_COLOR 3,
      .text (bx0c + BUBBLE_PADDING, by0c + BUBBLE_PADDING - m.bboxTop text fontSize)
        text TEXT_COLOR fontSize ]
  { bx0 := bx0c, by0 := by0c, bx1 := bx1c, by1 := by1c, tail_x := tail_x,
    cmds := cmds, ret := (bx0c, by0c, bx1c, by1c + TAIL_SIZE) }

/-! ## Compositing model

`overlay_bubbles` draws onto a transparent RGBA layer and alpha-composites
it over the source image.  `ImageDraw` primitives write their colour
directly into the layer (no blending among themselves), so the layer is a
painter-style fold over the draw calls; which pixels a primitive covers is
the PIL rasterization, kept abstract as a `Rasterizer`.
`Image.alpha_composite` is the PIL straight-alpha "over" operator, exact here
on the cases an opaque background or a transparent foreground produce. -/

/-- A rasterization of the drawing primitives: for a draw call and a pixel,
`some c` when the call writes colour `c` there, `none` when it leaves the
pixel alone. -/
abbrev Rasterizer := ImgGen.DrawCmd → Nat → Nat → Option RGBA

/-- Painting one draw call onto a layer: covered pixels are overwritten. -/
def paintCmd (rast : Rasterizer) (layer : Nat → Nat → RGBA)
    (c : DrawCmd) : Nat → Nat → RGBA :=
  fun x y => match rast c x y with
    | some col => col
    | none => layer x y

/-- Painting a list of draw calls in order; later calls overwrite earlier
ones where they overlap. -/
def paint (rast : Rasterizer) (layer : Nat → Nat → RGBA)
    (cmds : List DrawCmd) : Nat → Nat → RGBA :=
  cmds.foldl (paintCmd rast) layer

/-- The fresh layer `Image.new("RGBA", img.size, (0, 0, 0, 0))`. -/
def transparentLayer : Nat → Nat → RGBA := fun _ _ => ⟨0, 0, 0, 0⟩

/-- Straight-alpha "over": composite foreground pixel `fg` over background
pixel `bg` (the per-pixel action of `Image.alpha_composite`).  Computed with
the common denominator `255 * 255` so that the opaque-background /
transparent-foreground cases are exact. -/
def alphaOver (bg fg : RGBA) : RGBA :=
  let outA255 : Nat := fg.a * 255 + bg.a * (255 - fg.a)
  let ch : Nat → Nat → Nat := fun fgc bgc =>
    if outA255 = 0 then 0
    else (fgc * fg.a * 255 + bgc * bg.a * (255 - fg.a)) / outA255
  ⟨ch fg.r bg.r, ch fg.g bg.g, ch fg.b bg.b, outA255 / 255⟩

/-- An RGB pixel (the output of `.convert("RGB")`). -/
structure RGB where
  r : Nat
  g : Nat
  b : Nat
deriving DecidableEq, Repr

/-- Conversion `.convert("RGB")`: drop the alpha channel. -/
def rgbOf (c : RGBA) : RGB := ⟨c.r, c.g, c.b⟩

/-- The decoded source image after `Image.open(input_path).convert("RGBA")`:
integer dimensions and an RGBA pixel accessor. -/
structure Image where
  w : Nat
  h : Nat
  px : Nat → Nat → RGBA

/-- The flattened output image `result` of `overlay_bubbles`. -/
structure RGBImage where
  w : Nat
  h : Nat
  px : Nat → Nat → RGB

/-! ## overlay_bubbles (src/overlay.py lines 105-159) -/

/-- Python truthiness of an optional string argument: `None` and `""` are
falsy, any other string is truthy. -/
def truthy : Option String → Bool
  | none => false
  | some s => !(s == "")

/-- Python `int(...)` on a real number: truncation toward zero.  The
fractional positions are modelled as rationals. -/
def pyInt (q : ℚ) : Int :=
  if 0 ≤ q then q.floor else -((-q).floor)

/-- One planned `draw_bubble` call of `overlay_bubbles`: the text, the
fitted font (by size), the anchor pixel coordinates and the tail side, in
the order the calls are issued. -/
structure PlannedBubble where
  text : String
  fontSize : Int
  cx : Int
  cy : Int
  tail_side : String
deriving Repr

/-- The sequence of `draw_bubble` calls `overlay_bubbles` issues, from the
image dimensions `w h` and the four optional arguments.  Follows
src/overlay.py lines 120-155: the width budget is
`w // 2 - MARGIN * 2` when both texts are truthy and `w - MARGIN * 2`
otherwise; supplied positions are denormalized by `int(frac * dim)`;
otherwise the per-mode default anchors are used. -/
def overlay_plan (m : FontMetrics) (w h : Nat)
    (left_text right_text : Option String)
    (pos_left pos_right : Option (ℚ × ℚ)) : List PlannedBubble :=
  let max_bubble_w : Int :=
    if truthy left_text && truthy right_text then ((w / 2 : Nat) : Int) - MARGIN * 2
    else (w : Int) - MARGIN * 2
  if truthy left_text && truthy right_text then
    -- Two bubbles
    let lt := left_text.getD ""
    let rt := right_text.getD ""
    let left_font := fit_font_size m lt max_bubble_w 42 22
    let right_font := fit_font_size m rt max_bubble_w 42 22
    let lp : Int × Int :=
      match pos_left with
      | some p => (pyInt (p.1 * (w : ℚ)), pyInt (p.2 * (h : ℚ)))
      | none => (((w / 4 : Nat) : Int), (h : Int) - MARGIN - 20)
    let rp : Int × Int :=
      match pos_right with
      | some p => (pyInt (p.1 * (w : ℚ)), pyInt (p.2 * (h : ℚ)))
      | none => (((3 * w / 4 : Nat) : Int), (h : Int) - MARGIN - 20)
    [ ⟨lt, left_font, lp.1, lp.2, "left"⟩,
      ⟨rt, right_font, rp.1, rp.2, "right"⟩ ]
  else if truthy left_text then
    let lt := left_text.getD ""
    let font := fit_font_size m lt max_bubble_w 42 22
    let cp : Int × Int :=
      match pos_left with
      | some p => (pyInt (p.1 * (w : ℚ)), pyInt (p.2 * (h : ℚ)))
      | none => (((w / 3 : Nat) : Int), (h : Int) - MARGIN - 20)
    [ ⟨lt, font, cp.1, cp.2, "left"⟩ ]
  else if truthy right_text then
    let rt := right_text.getD ""
    let font := fit_font_size m rt max_bubble_w 42 22
    let cp : Int × Int :=
      match pos_right with
      | some p => (pyInt (p.1 * (w : ℚ)), pyInt (p.2 * (h : ℚ)))
      | none => (((2 * w / 3 : Nat) : Int), (h : Int) - MARGIN - 20)
    [ ⟨rt, font, cp.1, cp.2, "right"⟩ ]
  else []

/-- The `draw_bubble` results of the planned calls, in order. -/
def overlay_results (m : FontMetrics) (w h : Nat)
    (left_text right_text : Option String)
    (pos_left pos_right : Option (ℚ × ℚ)) : List BubbleResult :=
  (overlay_plan m w h left_text right_text pos_left pos_right).map
    fun b => draw_bubble m b.text b.fontSize b.cx b.cy b.tail_side (w : Int) (h : Int)

/-- All draw calls issued onto the shared overlay layer, in order. -/
def overlay_cmds (m : FontMetrics) (w h : Nat)
    (left_text right_text : Option String)
    (pos_left pos_right : Option (ℚ × ℚ)) : List DrawCmd :=
  ((overlay_results m w h left_text right_text pos_left pos_right).map
    BubbleResult.cmds).flatten

/-- Embedding of `overlay_bubbles` from src/overlay.py: draw the planned bubbles onto a
transparent layer over the decoded image `img`, alpha-composite, flatten to
RGB, save to `output_path` and return it.  The result models the pair
(saved path, saved image); the save is unconditional in the source. -/
def overlay_bubbles (m : FontMetrics) (rast : Rasterizer) (img : Image)
    (output_path : String)
    (left_text right_text : Option String)
    (pos_left pos_right : Option (ℚ × ℚ)) : String × RGBImage :=
  let cmds := overlay_cmds m img.w img.h left_text right_text pos_left pos_right
  let layer := paint rast transparentLayer cmds
  ( output_path,
    { w := img.w, h := img.h,
      px := fun x y => rgbOf (alphaOver (img.px x y) (layer x y)) } )

/-! ## main (src/overlay.py lines 162-181) -/

/-- The observable outcome of `main`: `usageError` and `missingInput` print
an error and `sys.exit(1)` (non-zero) before any layout work; `saved` is
the completed `overlay_bubbles` call. -/
inductive MainOutcome where
  | usageError
  | missingInput
  | saved (result : String × RGBImage)

/-- Embedding of `main` from src/overlay.py.  `left`/`right` are the argparse values
(`None` when the flag is absent); `inputExists` is `Path(args.input).exists()`;
`img` is the image decoded from the input path when it exists. -/
def main (m : FontMetrics) (rast : Rasterizer) (img : Image)
    (inputExists : Bool) (output : String)
    (left right : Option String) : MainOutcome :=
  if !truthy left && !truthy right then .usageError
  else if !inputExists then .missingInput
  else .saved (overlay_bubbles m rast img output left right none none)

/-! ## Concrete font metrics used to instantiate theorems -/

/-- A constant-width metric: every text measures 10 pixels wide and 10
pixels tall at every size. -/
def cmConst : FontMetrics :=
  ⟨fun _ _ => 10, fun _ _ => 10, fun _ _ => 0⟩

/-- A proportional-font metric: the three-letter text `"iii"` is narrow
(10 px) while anything else, such as the two-letter `"ab"`, is wide
(300 px) — the way narrow glyphs behave in the fixed DejaVuSans-Bold
typeface, where the length of a text does not determine its measured width. -/
def cmProp : FontMetrics :=
  ⟨fun t _ => if t = "iii" then 10 else 300, fun _ _ => 10, fun _ _ => 0⟩

/-! ## Lemmas about the candidate-size list -/

theorem rangeDown2Aux_length (n : Nat) (a : Int) :
    (rangeDown2Aux n a).length = n := by
  induction n generalizing a with
  | zero => rfl
  | succ n ih => simp [rangeDown2Aux, ih]

theorem mem_rangeDown2Aux_le {x : Int} {n : Nat} {a : Int}
    (hx : x ∈ rangeDown2Aux n a) : x ≤ a := by
  induction n generalizing a with
  | zero => simp [rangeDown2Aux] at hx
  | succ n ih =>
    simp only [rangeDown2Aux, List.mem_cons] at hx
    rcases hx with rfl | hx
    · exact le_refl x
    · have := ih hx
      omega

theorem mem_rangeDown2Aux_ge {x : Int} {n : Nat} {a : Int}
    (hx : x ∈ rangeDown2Aux n a) : a - 2 * ((n : Int) - 1) ≤ x := by
  induction n generalizing a with
  | zero => simp [rangeDown2Aux] at hx
  | succ n ih =>
    simp only [rangeDown2Aux, List.mem_cons] at hx
    rcases hx with rfl | hx
    · omega
    · have := ih hx
      omega

theorem rangeDown2Aux_pairwise (n : Nat) (a : Int) :
    (rangeDown2Aux n a).Pairwise (· > ·) := by
  induction n generalizing a with
  | zero => exact List.Pairwise.nil
  | succ n ih =>
    refine List.Pairwise.cons (fun x hx => ?_) (ih (a - 2))
    have := mem_rangeDown2Aux_le hx
    omega

theorem pyRangeDown2_pairwise (a b : Int) :
    (pyRangeDown2 a b).Pairwise (· > ·) :=
  rangeDown2Aux_pairwise _ a

theorem mem_pyRangeDown2_le {x a b : Int} (hx : x ∈ pyRangeDown2 a b) :
    x ≤ a :=
  mem_rangeDown2Aux_le hx

theorem mem_pyRangeDown2_gt {x a b : Int} (hx : x ∈ pyRangeDown2 a b) :
    b < x := by
  unfold pyRangeDown2 at hx
  rcases Nat.eq_zero_or_pos ((a - b + 1) / 2).toNat with h0 | hpos
  · rw [h0] at hx
    simp [rangeDown2Aux] at hx
  · have hge := mem_rangeDown2Aux_ge hx
    have hcast : (((a - b + 1) / 2).toNat : Int) = (a - b + 1) / 2 := by
      refine Int.toNat_of_nonneg ?_
      by_contra hneg
      push_neg at hneg
      have : ((a - b + 1) / 2).toNat = 0 := by
        have : (a - b + 1) / 2 ≤ 0 := le_of_lt hneg
        omega
      omega
    rw [hcast] at hge
    omega

/-! ## Lemmas about the fitting loop -/

theorem fitLoop_of_none (m : FontMetrics) (text : String)
    (max_width min_size : Int) (l : List Int)
    (h : ∀ s ∈ l, ¬ FitsAt m text max_width s) :
    fitLoop m text max_width min_size l = min_size := by
  induction l with
  | nil => rfl
  | cons s rest ih =>
    have hs := h s (List.mem_cons_self s rest)
    rw [fitLoop, if_neg hs]
    exact ih fun s hs => h s (List.mem_cons_of_mem _ hs)

theorem fitLoop_first (m : FontMetrics) (text : String)
    (max_width min_size : Int) (l : List Int)
    (hsorted : l.Pairwise (· > ·))
    (hex : ∃ s ∈ l, FitsAt m text max_width s) :
    fitLoop m text max_width min_size l ∈ l ∧
      FitsAt m text max_width (fitLoop m text max_width min_size l) ∧
      ∀ s ∈ l, FitsAt m text max_width s →
        s ≤ fitLoop m text max_width min_size l := by
  induction l with
  | nil => simp at hex
  | cons s rest ih =>
    by_cases hs : FitsAt m text max_width s
    · rw [fitLoop, if_pos hs]
      refine ⟨List.mem_cons_self s rest, hs, fun t ht _ => ?_⟩
      rcases List.mem_cons.mp ht with rfl | ht
      · exact le_refl t
      · exact le_of_lt ((List.pairwise_cons.mp hsorted).1 t ht)
    · rw [fitLoop, if_neg hs]
      have hex' : ∃ t ∈ rest, FitsAt m text max_width t := by
        rcases hex with ⟨t, ht, hfit⟩
        rcases List.mem_cons.mp ht with rfl | ht
        · exact absurd hfit hs
        · exact ⟨t, ht, hfit⟩
      obtain ⟨hmem, hfit, hmax⟩ := ih (List.pairwise_cons.mp hsorted).2 hex'
      refine ⟨List.mem_cons_of_mem _ hmem, hfit, fun t ht htfit => ?_⟩
      rcases List.mem_cons.mp ht with rfl | ht
      · exact absurd htfit hs
      · exact hmax t ht htfit

/-- The selected size is never below `min_size` (candidates all lie strictly
above `min_size - 1`, and the fallback is `min_size`). -/
theorem fit_font_size_ge_min (m : FontMetrics) (text : String)
    (max_width max_size min_size : Int) :
    min_size ≤ fit_font_size m text max_width max_size min_size := by
  unfold fit_font_size
  by_cases hex : ∃ s ∈ pyRangeDown2 max_size (min_size - 1),
      FitsAt m text max_width s
  · obtain ⟨hmem, _, _⟩ :=
      fitLoop_first m text max_width min_size _
        (pyRangeDown2_pairwise _ _) hex
    have := mem_pyRangeDown2_gt hmem
    omega
  · push_neg at hex
    rw [fitLoop_of_none m text max_width min_size _ hex]

/-! ## C1 — fit_font_size is a first-fit scan with a min-size fallback -/

/-- C1: for every non-empty `text` and every `max_width > 0` (and any
typeface metrics), `fit_font_size` with its defaults examines the candidate
sizes `42, 40, …, 22` (step −2); when the measured width at some candidate size plus
`2*BUBBLE_PADDING` fits within `max_width` it returns the first — i.e.
largest — such candidate, and when no candidate fits it returns `min_size =
22` (no exception: the function is total, and the bubble may then overflow
its nominal budget). -/
theorem c1_fit_font_size_first_fit (m : FontMetrics) (text : String)
    (max_width : Int) (htext : text ≠ "") (hwidth : 0 < max_width) :
    pyRangeDown2 42 (22 - 1) = [42, 40, 38, 36, 34, 32, 30, 28, 26, 24, 22] ∧
    ((∃ s ∈ pyRangeDown2 42 (22 - 1), FitsAt m text max_width s) →
      fit_font_size m text max_width 42 22 ∈ pyRangeDown2 42 (22 - 1) ∧
      FitsAt m text max_width (fit_font_size m text max_width 42 22) ∧
      ∀ s ∈ pyRangeDown2 42 (22 - 1), FitsAt m text max_width s →
        s ≤ fit_font_size m text max_width 42 22) ∧
    ((∀ s ∈ pyRangeDown2 42 (22 - 1), ¬ FitsAt m text max_width s) →
      fit_font_size m text max_width 42 22 = 22) := by
  refine ⟨by decide, fun hex => ?_, fun hnone => ?_⟩
  · exact fitLoop_first m text max_width 22 _ (pyRangeDown2_pairwise _ _) hex
  · exact fitLoop_of_none m text max_width 22 _ hnone

/-- Witness for C1 at the concrete metric `cmConst`, text `"hi"`,
`max_width = 100`: the hypotheses hold and the selected size 42 is a
fitting candidate. -/
theorem c1_witness :
    fit_font_size cmConst "hi" 100 42 22 ∈ pyRangeDown2 42 (22 - 1) ∧
    FitsAt cmConst "hi" 100 (fit_font_size cmConst "hi" 100 42 22) ∧
    fit_font_size cmConst "hi" 100 42 22 = 42 := by
  have h := (c1_fit_font_size_first_fit cmConst "hi" 100 (by decide)
    (by decide)).2.1 ⟨42, by decide, by decide⟩
  exact ⟨h.1, h.2.1, by decide⟩

/-! ## C7 — monotonicity of the fitted size

The claim orders fitted sizes by text *length*.  The engine measures texts
with the proportional DejaVuSans-Bold typeface, where a longer text can be
strictly narrower than a shorter one (`"iii"` versus `"ab"`), and
`fit_font_size` only ever sees the measured widths: the claim fails, and the
correct ordering hypothesis is width domination at every candidate size. -/

/-- C7 counterexample: under the metrics `cmProp` (a longer text measuring
narrower than a shorter one, as happens in a proportional typeface), the
two-character text `"ab"` receives size 22 while the three-character text
`"iii"` receives size 42 under the same budget — refuting "longer text
never receives a strictly larger font". -/
theorem c7_counterexample :
    "ab".length < "iii".length ∧ "ab" ≠ "" ∧ "iii" ≠ "" ∧
    ¬ (fit_font_size cmProp "iii" 100 42 22 ≤
        fit_font_size cmProp "ab" 100 42 22) := by
  decide

/-- C7 amended: for every pair of non-empty texts such that `text_b`
measures at least as wide as `text_a` at every candidate size (the sizes of
`pyRangeDown2 max_size (min_size - 1)`, the only sizes the fitter ever
measures), and the same `max_width`, `max_size` and `min_size`, the size
selected for `text_b` is less than or equal to the size selected for
`text_a` (a wider-measuring text never receives a strictly larger font
under the same budget). -/
theorem c7_fit_font_size_width_monotone (m : FontMetrics)
    (text_a text_b : String) (ha : text_a ≠ "") (hb : text_b ≠ "")
    (max_width max_size min_size : Int)
    (hdom : ∀ s ∈ pyRangeDown2 max_size (min_size - 1),
      m.width text_a s ≤ m.width text_b s) :
    fit_font_size m text_b max_width max_size min_size ≤
      fit_font_size m text_a max_width max_size min_size := by
  have hmono : ∀ s ∈ pyRangeDown2 max_size (min_size - 1),
      FitsAt m text_b max_width s → FitsAt m text_a max_width s := by
    intro s hsmem hs
    unfold FitsAt at hs ⊢
    have := hdom s hsmem
    omega
  by_cases hex : ∃ s ∈ pyRangeDown2 max_size (min_size - 1),
      FitsAt m text_b max_width s
  · obtain ⟨hmemb, hfitb, _⟩ :=
      fitLoop_first m text_b max_width min_size _
        (pyRangeDown2_pairwise _ _) hex
    have hexa : ∃ s ∈ pyRangeDown2 max_size (min_size - 1),
        FitsAt m text_a max_width s := by
      rcases hex with ⟨s, hsmem, hsfit⟩
      exact ⟨s, hsmem, hmono s hsmem hsfit⟩
    obtain ⟨_, _, hmaxa⟩ :=
      fitLoop_first m text_a max_width min_size _
        (pyRangeDown2_pairwise _ _) hexa
    exact hmaxa _ hmemb (hmono _ hmemb hfitb)
  · push_neg at hex
    unfold fit_font_size
    rw [fitLoop_of_none m text_b max_width min_size _ hex]
    exact fit_font_size_ge_min m text_a max_width max_size min_size

/-- Witness for the amended C7 theorem at the constant metric `cmConst`,
texts `"a"` and `"bc"`, budget 100. -/
theorem c7_witness :
    fit_font_size cmConst "bc" 100 42 22 ≤
      fit_font_size cmConst "a" 100 42 22 :=
  c7_fit_font_size_width_monotone cmConst "a" "bc" (by decide) (by decide)
    100 42 22 (fun _ _ => le_refl _)

/-! ## Geometry lemmas about draw_bubble -/

/-- The Python return value of `draw_bubble` is the clamped box with
`TAIL_SIZE` added below: `(bx0, by0, bx1, by1 + TAIL_SIZE)`. -/
theorem draw_bubble_ret (m : FontMetrics) (text : String) (fontSize : Int)
    (center_x bottom_y : Int) (tail_side : String) (img_width img_height : Int) :
    (draw_bubble m text fontSize center_x bottom_y tail_side img_width img_height).ret =
      ((draw_bubble m text fontSize center_x bottom_y tail_side img_width img_height).bx0,
       (draw_bubble m text fontSize center_x bottom_y tail_side img_width img_height).by0,
       (draw_bubble m text fontSize center_x bottom_y tail_side img_width img_height).bx1,
       (draw_bubble m text fontSize center_x bottom_y tail_side img_width img_height).by1 + TAIL_SIZE) := by
  rfl

/-- The clamps preserve the bubble size: the clamped box is still
`text_w + 2*BUBBLE_PADDING` wide. -/
theorem draw_bubble_width (m : FontMetrics) (text : String) (fontSize : Int)
    (center_x bottom_y : Int) (tail_side : String) (img_width img_height : Int) :
    (draw_bubble m text fontSize center_x bottom_y tail_side img_width img_height).bx1 -
      (draw_bubble m text fontSize center_x bottom_y tail_side img_width img_height).bx0 =
      (m.width text fontSize : Int) + BUBBLE_PADDING * 2 := by
  simp only [draw_bubble, BUBBLE_PADDING]
  split_ifs <;> omega

/-- The vertical clamp runs last and is untouched by the horizontal shifts:
the top edge of the final box is never above `MARGIN`. -/
theorem draw_bubble_top_clamped (m : FontMetrics) (text : String) (fontSize : Int)
    (center_x bottom_y : Int) (tail_side : String) (img_width img_height : Int) :
    MARGIN ≤ (draw_bubble m text fontSize center_x bottom_y tail_side img_width img_height).by0 := by
  simp only [draw_bubble, MARGIN, TAIL_SIZE]
  split_ifs <;> omega

/-- When the bubble is no wider than the horizontal budget
`img_width - 2*MARGIN`, the final box respects both side margins. -/
theorem draw_bubble_sides_clamped (m : FontMetrics) (text : String) (fontSize : Int)
    (center_x bottom_y : Int) (tail_side : String) (img_width img_height : Int)
    (hfit : (m.width text fontSize : Int) + BUBBLE_PADDING * 2 ≤ img_width - MARGIN * 2) :
    MARGIN ≤ (draw_bubble m text fontSize center_x bottom_y tail_side img_width img_height).bx0 ∧
      (draw_bubble m text fontSize center_x bottom_y tail_side img_width img_height).bx1 ≤
        img_width - MARGIN := by
  simp only [draw_bubble, MARGIN, BUBBLE_PADDING, TAIL_SIZE] at hfit ⊢
  split_ifs <;> omega

/-- When the bubble is wider than the horizontal budget, the two sequential
horizontal clamps leave the box pinned to the right margin: its right edge
is exactly `img_width - MARGIN` and its left edge `img_width - MARGIN`
minus the bubble width, which is below `MARGIN`. -/
theorem draw_bubble_overwide_pinned_right (m : FontMetrics) (text : String)
    (fontSize : Int) (center_x bottom_y : Int) (tail_side : String)
    (img_width img_height : Int)
    (hwide : img_width - MARGIN * 2 < (m.width text fontSize : Int) + BUBBLE_PADDING * 2) :
    (draw_bubble m text fontSize center_x bottom_y tail_side img_width img_height).bx1 =
        img_width - MARGIN ∧
      (draw_bubble m text fontSize center_x bottom_y tail_side img_width img_height).bx0 =
        img_width - MARGIN - ((m.width text fontSize : Int) + BUBBLE_PADDING * 2) ∧
      (draw_bubble m text fontSize center_x bottom_y tail_side img_width img_height).bx0 <
        MARGIN := by
  simp only [draw_bubble, MARGIN, BUBBLE_PADDING, TAIL_SIZE] at hwide ⊢
  split_ifs <;> omega

/-- The tail apex stays within the inset range `[bx0 + 20, bx1 - 20]`;
this range is nonempty because the box is at least 40 px wide. -/
theorem draw_bubble_tail_inset (m : FontMetrics) (text : String) (fontSize : Int)
    (center_x bottom_y : Int) (tail_side : String) (img_width img_height : Int) :
    (draw_bubble m text fontSize center_x bottom_y tail_side img_width img_height).bx0 + 20 ≤
        (draw_bubble m text fontSize center_x bottom_y tail_side img_width img_height).tail_x ∧
      (draw_bubble m text fontSize center_x bottom_y tail_side img_width img_height).tail_x ≤
        (draw_bubble m text fontSize center_x bottom_y tail_side img_width img_height).bx1 - 20 := by
  simp only [draw_bubble]
  rw [max_def, min_def]
  split_ifs <;> omega

/-! ## C2 — containment of the clamped box -/

/-- C2: for every valid input (non-empty text, canvas at least 100×100,
anchor inside the canvas) and any typeface metrics and font size, the box
returned by `draw_bubble` has `y0 ≥ MARGIN` unconditionally, and whenever
the bubble width `text_w + 2*BUBBLE_PADDING` is at most
`canvas_w - 2*MARGIN` it also has `x0 ≥ MARGIN` and `x1 ≤ canvas_w -
MARGIN`: the box never exceeds the canvas on the clamped sides. -/
theorem c2_box_contained (m : FontMetrics) (text : String) (fontSize : Int)
    (center_x bottom_y : Int) (tail_side : String) (img_width img_height : Int)
    (htext : text ≠ "") (hw : 100 ≤ img_width) (hh : 100 ≤ img_height)
    (hcx : 0 ≤ center_x ∧ center_x ≤ img_width)
    (hcy : 0 ≤ bottom_y ∧ bottom_y ≤ img_height) :
    MARGIN ≤ (draw_bubble m text fontSize center_x bottom_y tail_side img_width img_height).by0 ∧
    ((m.width text fontSize : Int) + BUBBLE_PADDING * 2 ≤ img_width - MARGIN * 2 →
      MARGIN ≤ (draw_bubble m text fontSize center_x bottom_y tail_side img_width img_height).bx0 ∧
      (draw_bubble m text fontSize center_x bottom_y tail_side img_width img_height).bx1 ≤
        img_width - MARGIN) :=
  ⟨draw_bubble_top_clamped m text fontSize center_x bottom_y tail_side img_width img_height,
   fun hfit =>
    draw_bubble_sides_clamped m text fontSize center_x bottom_y tail_side
      img_width img_height hfit⟩

/-- Witness for C2 at the constant metric, text `"hi"` (50 px bubble),
anchor (512, 1000) on a 1024×1024 canvas. -/
theorem c2_witness :
    MARGIN ≤ (draw_bubble cmConst "hi" 42 512 1000 "left" 1024 1024).by0 ∧
    MARGIN ≤ (draw_bubble cmConst "hi" 42 512 1000 "left" 1024 1024).bx0 ∧
    (draw_bubble cmConst "hi" 42 512 1000 "left" 1024 1024).bx1 ≤ 1024 - MARGIN := by
  have h := c2_box_contained cmConst "hi" 42 512 1000 "left" 1024 1024
    (by decide) (by decide) (by decide) (by decide) (by decide)
  exact ⟨h.1, h.2 (by decide)⟩

/-! ## C3 — clamp order, and where an over-wide box ends up

The description of the clamp order in the claim matches the code (left-edge
clamp, then right-edge clamp, both applied when their condition holds), but
its conclusion does not: because the right-edge clamp runs *after* the
left-edge clamp, a bubble wider than `canvas_w - 2*MARGIN` always ends up
with its right edge pinned to `canvas_w - MARGIN` and its left edge pushed
*below* `MARGIN` — pinned to the right margin, not the left. -/

/-- C3 counterexample: an over-wide bubble (340 px on a 100 px canvas,
budget `100 - 2*MARGIN = 50`) does not end with `x0 = MARGIN`: the final
box has `x0 = -265` and `x1 = 75 = canvas_w - MARGIN`. -/
theorem c3_counterexample :
    100 - MARGIN * 2 < (cmProp.width "ab" 30 : Int) + BUBBLE_PADDING * 2 ∧
    ¬ (draw_bubble cmProp "ab" 30 50 90 "left" 100 100).bx0 = MARGIN ∧
    (draw_bubble cmProp "ab" 30 50 90 "left" 100 100).bx0 = -265 ∧
    (draw_bubble cmProp "ab" 30 50 90 "left" 100 100).bx1 = 75 := by
  decide

/-- C3 amended: horizontal clamping first shifts the box right so its left
edge equals `MARGIN` when the left edge is below `MARGIN`, then shifts it
left so its right edge equals `canvas_w - MARGIN` when the right edge
exceeds that; consequently, for every bubble wider than
`canvas_w - 2*MARGIN`, the final box is pinned to the right margin
(`x1 = canvas_w - MARGIN`, hence `x0 = canvas_w - MARGIN - width < MARGIN`),
not centered and not pinned to the left margin. -/
theorem c3_overwide_pinned_right (m : FontMetrics) (text : String)
    (fontSize : Int) (center_x bottom_y : Int) (tail_side : String)
    (img_width img_height : Int)
    (hwide : img_width - MARGIN * 2 < (m.width text fontSize : Int) + BUBBLE_PADDING * 2) :
    (draw_bubble m text fontSize center_x bottom_y tail_side img_width img_height).bx1 =
        img_width - MARGIN ∧
      (draw_bubble m text fontSize center_x bottom_y tail_side img_width img_height).bx0 =
        img_width - MARGIN - ((m.width text fontSize : Int) + BUBBLE_PADDING * 2) ∧
      (draw_bubble m text fontSize center_x bottom_y tail_side img_width img_height).bx0 <
        MARGIN :=
  draw_bubble_overwide_pinned_right m text fontSize center_x bottom_y
    tail_side img_width img_height hwide

/-- Witness for the amended C3 theorem on the concrete over-wide bubble. -/
theorem c3_witness :
    (draw_bubble cmProp "ab" 30 50 90 "left" 100 100).bx1 = 100 - MARGIN ∧
    (draw_bubble cmProp "ab" 30 50 90 "left" 100 100).bx0 =
      100 - MARGIN - ((cmProp.width "ab" 30 : Int) + BUBBLE_PADDING * 2) ∧
    (draw_bubble cmProp "ab" 30 50 90 "left" 100 100).bx0 < MARGIN :=
  c3_overwide_pinned_right cmProp "ab" 30 50 90 "left" 100 100 (by decide)

/-! ## C4 — tail apex containment -/

/-- C4: for every bubble produced by `draw_bubble`, the box is at least
40 px wide by construction (`width = text_w + 2*BUBBLE_PADDING` with
`BUBBLE_PADDING = 20`), the tail apex x-coordinate lies within
`[x0 + 20, x1 - 20]`, and therefore always lies within `[x0, x1]`. -/
theorem c4_tail_apex_in_box (m : FontMetrics) (text : String) (fontSize : Int)
    (center_x bottom_y : Int) (tail_side : String) (img_width img_height : Int) :
    (draw_bubble m text fontSize center_x bottom_y tail_side img_width img_height).bx1 -
        (draw_bubble m text fontSize center_x bottom_y tail_side img_width img_height).bx0 =
        (m.width text fontSize : Int) + BUBBLE_PADDING * 2 ∧
    40 ≤ (draw_bubble m text fontSize center_x bottom_y tail_side img_width img_height).bx1 -
        (draw_bubble m text fontSize center_x bottom_y tail_side img_width img_height).bx0 ∧
    (draw_bubble m text fontSize center_x bottom_y tail_side img_width img_height).bx0 + 20 ≤
        (draw_bubble m text fontSize center_x bottom_y tail_side img_width img_height).tail_x ∧
    (draw_bubble m text fontSize center_x bottom_y tail_side img_width img_height).tail_x ≤
        (draw_bubble m text fontSize center_x bottom_y tail_side img_width img_height).bx1 - 20 ∧
    (draw_bubble m text fontSize center_x bottom_y tail_side img_width img_height).bx0 ≤
        (draw_bubble m text fontSize center_x bottom_y tail_side img_width img_height).tail_x ∧
    (draw_bubble m text fontSize center_x bottom_y tail_side img_width img_height).tail_x ≤
        (draw_bubble m text fontSize center_x bottom_y tail_side img_width img_height).bx1 := by
  have hwidth := draw_bubble_width m text fontSize center_x bottom_y tail_side
    img_width img_height
  have htail := draw_bubble_tail_inset m text fontSize center_x bottom_y tail_side
    img_width img_height
  have hnn : (0 : Int) ≤ (m.width text fontSize : Int) := Int.ofNat_nonneg _
  rw [BUBBLE_PADDING] at hwidth ⊢
  exact ⟨hwidth, by omega, htail.1, htail.2, by omega, by omega⟩

/-! ## Lemmas about painting and compositing -/

theorem paint_append (rast : Rasterizer) (base : Nat → Nat → RGBA)
    (l1 l2 : List DrawCmd) :
    paint rast base (l1 ++ l2) = paint rast (paint rast base l1) l2 :=
  List.foldl_append _ _ _ _

theorem paint_not_covered (rast : Rasterizer) (cmds : List DrawCmd)
    (x y : Nat) (h : ∀ c ∈ cmds, rast c x y = none)
    (base : Nat → Nat → RGBA) :
    paint rast base cmds x y = base x y := by
  induction cmds generalizing base with
  | nil => rfl
  | cons c cs ih =>
    have hc := h c (List.mem_cons_self c cs)
    have := ih (fun c hc => h c (List.mem_cons_of_mem _ hc)) (paintCmd rast base c)
    simp only [paint, List.foldl_cons] at this ⊢
    rw [this, paintCmd, hc]

/-- At a pixel some command covers, the painted value does not depend on
what lay underneath: only the command list matters. -/
theorem paint_covered_indep (rast : Rasterizer) (cmds : List DrawCmd)
    (x y : Nat) (hcov : ∃ c ∈ cmds, (rast c x y).isSome)
    (b1 b2 : Nat → Nat → RGBA) :
    paint rast b1 cmds x y = paint rast b2 cmds x y := by
  induction cmds generalizing b1 b2 with
  | nil => simp at hcov
  | cons c cs ih =>
    by_cases hcs : ∃ c' ∈ cs, (rast c' x y).isSome
    · exact ih hcs (paintCmd rast b1 c) (paintCmd rast b2 c)
    · push_neg at hcs
      have hnone : ∀ c' ∈ cs, rast c' x y = none := by
        intro c' hc'
        exact Option.not_isSome_iff_eq_none.mp (by simpa using hcs c' hc')
      have hc : (rast c x y).isSome := by
        rcases hcov with ⟨c', hc', hs⟩
        rcases List.mem_cons.mp hc' with rfl | hmem
        · exact hs
        · exact absurd hs (by simpa using hcs c' hmem)
      obtain ⟨col, hcol⟩ := Option.isSome_iff_exists.mp hc
      have hstep : ∀ b : Nat → Nat → RGBA,
          paint rast b (c :: cs) = paint rast (paintCmd rast b c) cs :=
        fun _ => rfl
      rw [hstep b1, hstep b2, paint_not_covered rast cs x y hnone,
        paint_not_covered rast cs x y hnone]
      simp only [paintCmd, hcol]

/-- Compositing a fully transparent foreground pixel over an opaque
background pixel returns the background pixel. -/
theorem alphaOver_transparent (bg : RGBA) (h : bg.a = 255) :
    alphaOver bg ⟨0, 0, 0, 0⟩ = bg := by
  obtain ⟨r, g, b, a⟩ := bg
  simp only at h
  subst h
  simp only [alphaOver]
  norm_num
  omega

/-! ## C5 — per-mode width budgets for the Font Sizer -/

/-- C5: when both texts are present (truthy), the font of each side is fitted
independently with the budget `w / 2 - 2*MARGIN` (Python floor division);
with exactly one text present the budget is `w - 2*MARGIN`.  In a
two-speaker call neither bubble is sized with the full-canvas budget, and
the selected font of each side equals `fit_font_size` of that text at the
half-canvas budget. -/
theorem c5_width_budgets (m : FontMetrics) (w h : Nat) (lt rt : String)
    (pos_left pos_right : Option (ℚ × ℚ)) (hl : lt ≠ "") (hr : rt ≠ "") :
    ((overlay_plan m w h (some lt) (some rt) pos_left pos_right).map
        PlannedBubble.fontSize =
      [fit_font_size m lt (((w / 2 : Nat) : Int) - MARGIN * 2) 42 22,
       fit_font_size m rt (((w / 2 : Nat) : Int) - MARGIN * 2) 42 22]) ∧
    ((overlay_plan m w h (some lt) none pos_left pos_right).map
        PlannedBubble.fontSize =
      [fit_font_size m lt ((w : Int) - MARGIN * 2) 42 22]) ∧
    ((overlay_plan m w h none (some rt) pos_left pos_right).map
        PlannedBubble.fontSize =
      [fit_font_size m rt ((w : Int) - MARGIN * 2) 42 22]) := by
  have hlb : (lt == "") = false := by
    simpa using hl
  have hrb : (rt == "") = false := by
    simpa using hr
  refine ⟨?_, ?_, ?_⟩ <;>
    · simp only [overlay_plan, truthy, hlb, hrb, Bool.not_false, Bool.and_true,
        Bool.true_and, Bool.and_false, Bool.false_and, if_true, if_false,
        Option.getD_some, Bool.not_true, ite_true, ite_false]
      rcases pos_left with _ | p <;> rcases pos_right with _ | q <;> simp

/-- Witness for C5 on a 200×200 canvas with texts `"a"` and `"b"` under the
constant metric: the half-canvas budget is `200/2 - 50 = 50` and the
full-canvas budget is `150`. -/
theorem c5_witness :
    ((overlay_plan cmConst 200 200 (some "a") (some "b") none none).map
        PlannedBubble.fontSize =
      [fit_font_size cmConst "a" (((200 / 2 : Nat) : Int) - MARGIN * 2) 42 22,
       fit_font_size cmConst "b" (((200 / 2 : Nat) : Int) - MARGIN * 2) 42 22]) ∧
    ((overlay_plan cmConst 200 200 (some "a") none none none).map
        PlannedBubble.fontSize =
      [fit_font_size cmConst "a" ((200 : Int) - MARGIN * 2) 42 22]) ∧
    fit_font_size cmConst "a" (((200 / 2 : Nat) : Int) - MARGIN * 2) 42 22 = 42 := by
  have h := c5_width_budgets cmConst 200 200 "a" "b" none none
    (by decide) (by decide)
  exact ⟨h.1, h.2.1, by decide⟩

/-! ## C6 — empty request is a usage failure -/

/-- C6: when neither a left nor a right text is supplied (argparse leaves
both `None`; the falsy `""` behaves the same), `main` rejects the request
as `usageError` — printing an error and exiting non-zero — before any
layout work: no `overlay_bubbles` call, and hence no font fitting or
drawing, happens on this path, and nothing is silently defaulted. -/
theorem c6_no_text_usage_error (m : FontMetrics) (rast : Rasterizer)
    (img : Image) (inputExists : Bool) (output : String)
    (left right : Option String)
    (hl : truthy left = false) (hr : truthy right = false) :
    main m rast img inputExists output left right = MainOutcome.usageError := by
  unfold main
  rw [hl, hr]
  rfl

/-- Witness for C6: both flags absent. -/
theorem c6_witness :
    main cmConst (fun _ _ _ => none) ⟨100, 100, fun _ _ => ⟨5, 6, 7, 255⟩⟩
      true "out.png" none none = MainOutcome.usageError :=
  c6_no_text_usage_error cmConst (fun _ _ _ => none)
    ⟨100, 100, fun _ _ => ⟨5, 6, 7, 255⟩⟩ true "out.png" none none rfl rfl

/-! ## C8 — empty string behaves like an absent text -/

/-- C8: `overlay_bubbles` tests text presence by Python truthiness, so `""`
is treated exactly like `None`: when each of `left_text` and `right_text`
is `None` or `""`, no bubble is planned (hence no font fitting and no
drawing), nothing fails, and the output is still written to `output_path`
as the flattened RGB input image (the input surface is the decoded image;
`halpha` says its alpha channel is the opaque 255 that
`Image.open(...).convert("RGBA")` produces for an RGB source). -/
theorem c8_empty_texts_no_bubbles (m : FontMetrics) (rast : Rasterizer)
    (img : Image) (output_path : String) (left right : Option String)
    (pos_left pos_right : Option (ℚ × ℚ))
    (hl : left = none ∨ left = some "") (hr : right = none ∨ right = some "")
    (halpha : ∀ x y, (img.px x y).a = 255) :
    overlay_plan m img.w img.h left right pos_left pos_right = [] ∧
    overlay_cmds m img.w img.h left right pos_left pos_right = [] ∧
    (overlay_bubbles m rast img output_path left right pos_left pos_right).1 =
      output_path ∧
    (overlay_bubbles m rast img output_path left right pos_left pos_right).2.w =
      img.w ∧
    (overlay_bubbles m rast img output_path left right pos_left pos_right).2.h =
      img.h ∧
    ∀ x y,
      (overlay_bubbles m rast img output_path left right pos_left pos_right).2.px x y =
        rgbOf (img.px x y) := by
  have hlt : truthy left = false := by rcases hl with rfl | rfl <;> rfl
  have hrt : truthy right = false := by rcases hr with rfl | rfl <;> rfl
  have hplan : overlay_plan m img.w img.h left right pos_left pos_right = [] := by
    simp [overlay_plan, hlt, hrt]
  have hcmds : overlay_cmds m img.w img.h left right pos_left pos_right = [] := by
    simp [overlay_cmds, overlay_results, hplan]
  refine ⟨hplan, hcmds, rfl, rfl, rfl, fun x y => ?_⟩
  show rgbOf (alphaOver (img.px x y)
    (paint rast transparentLayer
      (overlay_cmds m img.w img.h left right pos_left pos_right) x y)) = _
  rw [hcmds]
  show rgbOf (alphaOver (img.px x y) ⟨0, 0, 0, 0⟩) = _
  rw [alphaOver_transparent _ (halpha x y)]

/-- Witness for C8: `left = none`, `right = some ""`, a 2×2 opaque input. -/
theorem c8_witness :
    overlay_plan cmConst 2 2 none (some "") none none = [] ∧
    (overlay_bubbles cmConst (fun _ _ _ => none)
        ⟨2, 2, fun _ _ => ⟨5, 6, 7, 255⟩⟩ "out.png" none (some "") none none).1 =
      "out.png" ∧
    (overlay_bubbles cmConst (fun _ _ _ => none)
        ⟨2, 2, fun _ _ => ⟨5, 6, 7, 255⟩⟩ "out.png" none (some "") none none).2.px 0 0 =
      ⟨5, 6, 7⟩ := by
  have h := c8_empty_texts_no_bubbles cmConst (fun _ _ _ => none)
    ⟨2, 2, fun _ _ => ⟨5, 6, 7, 255⟩⟩ "out.png" none (some "") none none
    (Or.inl rfl) (Or.inr rfl) (fun _ _ => rfl)
  exact ⟨h.1, h.2.2.1, by rw [h.2.2.2.2.2 0 0]; rfl⟩

/-! ## C9 — anchor fractions are never validated -/

/-- C9: anchor fractions are never validated.  For every pair of rational
`pos_left`/`pos_right` values — including values outside `[0, 1]` —
`overlay_bubbles` denormalizes each as `int(frac * dim)` (truncation toward
zero), calls `draw_bubble` with the result, and every resulting box still
satisfies the top clamp (`y0 ≥ MARGIN`) and the conditional horizontal
clamps; no error branch exists on this path. -/
theorem c9_anchor_fractions_unchecked (m : FontMetrics) (w h : Nat)
    (lt rt : String) (ql qr : ℚ × ℚ) (hl : lt ≠ "") (hr : rt ≠ "") :
    overlay_results m w h (some lt) (some rt) (some ql) (some qr) =
      [draw_bubble m lt
         (fit_font_size m lt (((w / 2 : Nat) : Int) - MARGIN * 2) 42 22)
         (pyInt (ql.1 * (w : ℚ))) (pyInt (ql.2 * (h : ℚ))) "left" (w : Int) (h : Int),
       draw_bubble m rt
         (fit_font_size m rt (((w / 2 : Nat) : Int) - MARGIN * 2) 42 22)
         (pyInt (qr.1 * (w : ℚ))) (pyInt (qr.2 * (h : ℚ))) "right" (w : Int) (h : Int)] ∧
    ∀ r ∈ overlay_results m w h (some lt) (some rt) (some ql) (some qr),
      MARGIN ≤ r.by0 ∧
      (r.bx1 - r.bx0 ≤ (w : Int) - MARGIN * 2 →
        MARGIN ≤ r.bx0 ∧ r.bx1 ≤ (w : Int) - MARGIN) := by
  have hlb : (lt == "") = false := by simpa using hl
  have hrb : (rt == "") = false := by simpa using hr
  have hres : overlay_results m w h (some lt) (some rt) (some ql) (some qr) =
      [draw_bubble m lt
         (fit_font_size m lt (((w / 2 : Nat) : Int) - MARGIN * 2) 42 22)
         (pyInt (ql.1 * (w : ℚ))) (pyInt (ql.2 * (h : ℚ))) "left" (w : Int) (h : Int),
       draw_bubble m rt
         (fit_font_size m rt (((w / 2 : Nat) : Int) - MARGIN * 2) 42 22)
         (pyInt (qr.1 * (w : ℚ))) (pyInt (qr.2 * (h : ℚ))) "right" (w : Int) (h : Int)] := by
    simp [overlay_results, overlay_plan, truthy, hlb, hrb]
  refine ⟨hres, fun r hmem => ?_⟩
  rw [hres] at hmem
  have hprop : ∀ (text : String) (fontSize cx cy : Int) (ts : String),
      MARGIN ≤ (draw_bubble m text fontSize cx cy ts (w : Int) (h : Int)).by0 ∧
      ((draw_bubble m text fontSize cx cy ts (w : Int) (h : Int)).bx1 -
          (draw_bubble m text fontSize cx cy ts (w : Int) (h : Int)).bx0 ≤
          (w : Int) - MARGIN * 2 →
        MARGIN ≤ (draw_bubble m text fontSize cx cy ts (w : Int) (h : Int)).bx0 ∧
          (draw_bubble m text fontSize cx cy ts (w : Int) (h : Int)).bx1 ≤
            (w : Int) - MARGIN) := by
    intro text fontSize cx cy ts
    refine ⟨draw_bubble_top_clamped m text fontSize cx cy ts _ _, fun hfit => ?_⟩
    rw [draw_bubble_width m text fontSize cx cy ts _ _] at hfit
    exact draw_bubble_sides_clamped m text fontSize cx cy ts _ _ hfit
  rcases List.mem_cons.mp hmem with rfl | hmem
  · exact hprop _ _ _ _ _
  rcases List.mem_cons.mp hmem with rfl | hmem
  · exact hprop _ _ _ _ _
  · simp at hmem

/-- Witness for C9: anchors `(-3, 7/2)` and `(5, -2)`, far outside
`[0, 1]`, on a 100×100 canvas: the first resulting box still has
`y0 ≥ MARGIN`. -/
theorem c9_witness :
    MARGIN ≤ ((overlay_results cmConst 100 100 (some "a") (some "b")
      (some ((-3 : ℚ), (7 / 2 : ℚ))) (some ((5 : ℚ), (-2 : ℚ)))).headI).by0 := by
  have h := c9_anchor_fractions_unchecked cmConst 100 100 "a" "b"
    ((-3 : ℚ), (7 / 2 : ℚ)) ((5 : ℚ), (-2 : ℚ)) (by decide) (by decide)
  rw [h.1]
  exact (h.2 _ (by rw [h.1]; exact List.mem_cons_self _ _)).1

/-! ## C10 — the right bubble is drawn on top -/

/-- C10: in the both-present mode the draw calls of the left bubble always
precede those of the right bubble on the shared transparent layer (the plan lists
the left text first and the command list is the commands of the left
bubble followed by those of the right).  Consequently, at any pixel the right
bubble covers, the painted layer equals what the right bubble alone would
paint — the pixels of the right bubble lie on top — and the composited output at
that pixel blends exactly the paint of the right bubble over the input image. -/
theorem c10_right_bubble_on_top (m : FontMetrics) (img : Image)
    (output_path : String) (lt rt : String) (pos_left pos_right : Option (ℚ × ℚ))
    (hl : lt ≠ "") (hr : rt ≠ "")
    (resL resR : BubbleResult)
    (hres : overlay_results m img.w img.h (some lt) (some rt) pos_left pos_right =
      [resL, resR])
    (rast : Rasterizer) (x y : Nat)
    (hcov : ∃ c ∈ resR.cmds, (rast c x y).isSome) :
    (overlay_plan m img.w img.h (some lt) (some rt) pos_left pos_right).map
        PlannedBubble.text = [lt, rt] ∧
    overlay_cmds m img.w img.h (some lt) (some rt) pos_left pos_right =
      resL.cmds ++ resR.cmds ∧
    paint rast transparentLayer
        (overlay_cmds m img.w img.h (some lt) (some rt) pos_left pos_right) x y =
      paint rast transparentLayer resR.cmds x y ∧
    (overlay_bubbles m rast img output_path (some lt) (some rt)
        pos_left pos_right).2.px x y =
      rgbOf (alphaOver (img.px x y) (paint rast transparentLayer resR.cmds x y)) := by
  have hlb : (lt == "") = false := by simpa using hl
  have hrb : (rt == "") = false := by simpa using hr
  have horder : (overlay_plan m img.w img.h (some lt) (some rt)
      pos_left pos_right).map PlannedBubble.text = [lt, rt] := by
    simp [overlay_plan, truthy, hlb, hrb]
  have hcmds : overlay_cmds m img.w img.h (some lt) (some rt) pos_left pos_right =
      resL.cmds ++ resR.cmds := by
    simp [overlay_cmds, hres]
  have hpaint : paint rast transparentLayer
      (overlay_cmds m img.w img.h (some lt) (some rt) pos_left pos_right) x y =
      paint rast transparentLayer resR.cmds x y := by
    rw [hcmds, paint_append]
    exact paint_covered_indep rast resR.cmds x y hcov _ _
  refine ⟨horder, hcmds, hpaint, ?_⟩
  show rgbOf (alphaOver (img.px x y)
    (paint rast transparentLayer
      (overlay_cmds m img.w img.h (some lt) (some rt) pos_left pos_right) x y)) = _
  rw [hpaint]

/-- Witness for C10: texts `"a"`/`"b"` with default anchors on a 100×100
canvas, and a rasterizer that covers every pixel: the command list splits
left-then-right and the painted pixel `(0, 0)` is what the right bubble
alone paints. -/
theorem c10_witness :
    overlay_cmds cmConst 100 100 (some "a") (some "b") none none =
      (draw_bubble cmConst "a" 22 25 55 "left" 100 100).cmds ++
        (draw_bubble cmConst "b" 22 75 55 "right" 100 100).cmds ∧
    paint (fun _ _ _ => some ⟨1, 2, 3, 4⟩) transparentLayer
        (overlay_cmds cmConst 100 100 (some "a") (some "b") none none) 0 0 =
      paint (fun _ _ _ => some ⟨1, 2, 3, 4⟩) transparentLayer
        (draw_bubble cmConst "b" 22 75 55 "right" 100 100).cmds 0 0 := by
  have h := c10_right_bubble_on_top cmConst
    ⟨100, 100, fun _ _ => ⟨5, 6, 7, 255⟩⟩ "out.png" "a" "b" none none
    (by decide) (by decide)
    (draw_bubble cmConst "a" 22 25 55 "left" 100 100)
    (draw_bubble cmConst "b" 22 75 55 "right" 100 100)
    (by decide) (fun _ _ _ => some ⟨1, 2, 3, 4⟩) 0 0
    ⟨DrawCmd.roundedRectangle ((draw_bubble cmConst "b" 22 75 55 "right" 100 100).bx0,
        (draw_bubble cmConst "b" 22 75 55 "right" 100 100).by0,
        (draw_bubble cmConst "b" 22 75 55 "right" 100 100).bx1,
        (draw_bubble cmConst "b" 22 75 55 "right" 100 100).by1) BUBBLE_RADIUS
        BUBBLE_COLOR OUTLINE_COLOR 2,
      by decide, rfl⟩
  exact ⟨h.2.1, h.2.2.1⟩

end ImgGen
